import Mathlib

/-!
Shallow embedding of the BotFramework-Composer deployment code:
the `BotProjectDeploy` class (`create` / `deploy` orchestration) and the
publish-status poller of `Publish.tsx`.  JSON / JavaScript dynamic values
are modelled by `JSValue`; each external call (Azure SDK, file system,
LUIS REST) is modelled as an emitted trace event whose returned value is
drawn from an explicit environment record, so that the orchestration
logic itself is translated line by line from the source.
-/

set_option autoImplicit false

namespace BotDeploy

/-- A JavaScript/JSON dynamic value, as used by the settings documents,
deployment outputs and template parameters.  `undefined` models JavaScript
`undefined` (the result of reading an absent property); objects are
ordered association lists, mirroring JS property insertion order. -/
inductive JSValue where
  | undefined : JSValue
  | str : String → JSValue
  | bool : Bool → JSValue
  | num : Int → JSValue
  | obj : List (String × JSValue) → JSValue
  deriving Repr

/-- JavaScript truthiness of a value (`if (x)`): `undefined`, `false`,
`0` and the empty string are falsy; every object is truthy. -/
def truthy : JSValue → Bool
  | .undefined => false
  | .str s => s ≠ ""
  | .bool b => b
  | .num n => n ≠ 0
  | .obj _ => true

/-- First binding of a key in an object's field list (JS objects have at
most one binding per key, so this is plain property lookup). -/
def lookupField : List (String × JSValue) → String → Option JSValue
  | [], _ => none
  | (k, v) :: rest, key => if k = key then some v else lookupField rest key

/-- JS property assignment `o[k] = v`: overwrite in place when the key is
present, append otherwise. -/
def setField : List (String × JSValue) → String → JSValue → List (String × JSValue)
  | [], k, v => [(k, v)]
  | (k', v') :: rest, k, v =>
      if k' = k then (k, v) :: rest else (k', v') :: setField rest k v

/-- `Object.assign(target, source)`: assign every field of `source` onto
`target`, in source order. -/
def objAssign (target source : List (String × JSValue)) : List (String × JSValue) :=
  source.foldl (fun acc kv => setField acc kv.1 kv.2) target

/-- Property access `v[key]`.  On a non-object it yields `undefined`.
In JavaScript accessing a property of `undefined`/`null` throws; the
embedding returns `undefined` there instead — every place the proofs below
exercise this function the receiver is an object, and a thrown access
would in any case skip the same downstream branches that a falsy
`undefined` skips. -/
def jsProp (v : JSValue) (key : String) : JSValue :=
  match v with
  | .obj fields => (lookupField fields key).getD .undefined
  | _ => .undefined

/-- BotProjectDeploy.pack: wrap a value in the `{value: X}` envelope
required by the ARM template engine. -/
def pack (scope : JSValue) : JSValue :=
  .obj [("value", scope)]

/-- BotProjectDeploy.unpackObject: for each field of `output`, keep
`output[key].value` — but only when that inner value is truthy
(the source guards with `if (objValue.value)`). -/
def unpackObject (output : List (String × JSValue)) : List (String × JSValue) :=
  output.foldl
    (fun unpacked kv =>
      let objValue := kv.2
      if truthy (jsProp objValue "value") then
        setField unpacked kv.1 (jsProp objValue "value")
      else unpacked)
    []

/-- BotProjectDeploy.getDeploymentTemplateParam: the five template
parameters, each wrapped by `pack`.  (The TypeScript signature declares
`appId: string`, but `create` feeds it the raw `settings.MicrosoftAppId`
value, so the parameter is modelled as a dynamic value.) -/
def getDeploymentTemplateParam (appId : JSValue) (appPwd location name : String)
    (shouldCreateAuthoringResource : Bool) : List (String × JSValue) :=
  [("appId", pack appId),
   ("appSecret", pack (.str appPwd)),
   ("appServicePlanLocation", pack (.str location)),
   ("botId", pack (.str name)),
   ("shouldCreateAuthoringResource", pack (.bool shouldCreateAuthoringResource))]

/-- Equality test `v === s` between a dynamic value and a string literal
(true only when `v` is a string of the same characters). -/
def jsStrEq : JSValue → String → Bool
  | .str s, t => s == t
  | _, _ => false

/-- BotProjectDeploy.updateDeploymentJsonFile: fetch the deployment,
and when `outputs?.properties?.outputs` is present, unpack them, overlay
the identity pair `{MicrosoftAppId, MicrosoftAppPassword}`, write the
merged object to the settings file and resolve to it; otherwise resolve
to the empty object and write nothing.  The returned pair is
(resolved value, file content written, if any). -/
def updateDeploymentJsonFile (outputs : Option (List (String × JSValue)))
    (appId : JSValue) (appPwd : String) :
    List (String × JSValue) × Option (List (String × JSValue)) :=
  match outputs with
  | some outputResult =>
      let applicationResult : List (String × JSValue) :=
        [("MicrosoftAppId", appId), ("MicrosoftAppPassword", .str appPwd)]
      let outputObj := unpackObject outputResult
      let result := objAssign (objAssign [] outputObj) applicationResult
      (result, some result)
  | none => ([], none)

/-- One externally visible call made by `create`, in program order.
`deleteHintLog` is the logged remediation line that embeds the
resource-group name (emitted on both failure paths and on success). -/
inductive CreateCall where
  | createApp (displayName appPassword : String)
  | createResourceGroup (location resourceGroupName : String)
  | validateDeployment (resourceGroupName deployName : String)
  | createDeployment (resourceGroupName deployName : String)
  | getDeployment (resourceGroupName deployName : String)
  | writeSettings (content : List (String × JSValue))
  | listDeploymentOperations (resourceGroupName deployName : String)
  | deleteHintLog (resourceGroupName : String)
  deriving Repr

/-- Results of the external calls `create` awaits, supplied as an
environment: the settings file on disk, the app registration the Graph
API would return, the validation result's `error` field, the deployment
response's `_response.status`, the deployment's
`properties.outputs`, and the timestamp taken for the deployment name. -/
structure CreateEnv where
  settingsFileExists : Bool
  settings : List (String × JSValue)
  createdAppId : String
  validationError : Option String
  deploymentStatus : Nat
  deploymentOutputs : Option (List (String × JSValue))
  timeStamp : String

/-- The tail of BotProjectDeploy.create after the app id has been
settled: resource-group creation, template-parameter assembly,
validation (abort on `validation.error`), deployment (abort on non-200
status), settings rewrite via `updateDeploymentJsonFile`, the
diagnostic branch guarded by `if (!updateResult)`, and the final
success log.  Returns (returned value, trace); `none` models a bare
`return` (JavaScript `undefined`), `some b` a `return b`. -/
def createRest (env : CreateEnv) (name location environment appPassword luisAuthoringKey : String)
    (appId : JSValue) (calls0 : List CreateCall) : Option Bool × List CreateCall :=
  let shouldCreateAuthoringResource := luisAuthoringKey = ""
  let resourceGroupName := name ++ "-" ++ environment
  let calls1 := calls0 ++ [CreateCall.createResourceGroup location resourceGroupName]
  let templateParam :=
    getDeploymentTemplateParam appId appPassword location name shouldCreateAuthoringResource
  let calls2 := calls1 ++ [CreateCall.validateDeployment resourceGroupName env.timeStamp]
  if (env.validationError).isSome then
    (some false, calls2 ++ [CreateCall.deleteHintLog resourceGroupName])
  else
    let calls3 := calls2 ++ [CreateCall.createDeployment resourceGroupName env.timeStamp]
    if env.deploymentStatus ≠ 200 then
      (some false, calls3 ++ [CreateCall.deleteHintLog resourceGroupName])
    else
      let upd := updateDeploymentJsonFile env.deploymentOutputs appId appPassword
      let calls4 := calls3 ++ [CreateCall.getDeployment resourceGroupName env.timeStamp] ++
        (match upd.2 with
         | some content => [CreateCall.writeSettings content]
         | none => [])
      let calls5 :=
        if ¬ truthy (.obj upd.1) then
          calls4 ++ [CreateCall.listDeploymentOperations resourceGroupName env.timeStamp]
        else calls4
      let _ := templateParam
      (some true, calls5 ++ [CreateCall.deleteHintLog resourceGroupName])

/-- BotProjectDeploy.create.  Missing settings file: bare return.
`settings.MicrosoftAppId` falsy: an empty `appPassword` is a bare
return, otherwise the app registration is created and its `appId`
used.  Then `createRest` runs the provisioning sequence. -/
def createRun (env : CreateEnv) (name location environment appPassword luisAuthoringKey : String) :
    Option Bool × List CreateCall :=
  if ¬ env.settingsFileExists then (none, [])
  else
    let appId0 := jsProp (.obj env.settings) "MicrosoftAppId"
    if truthy appId0 then
      createRest env name location environment appPassword luisAuthoringKey appId0 []
    else if appPassword = "" then
      (none, [])
    else
      createRest env name location environment appPassword luisAuthoringKey
        (.str env.createdAppId) [CreateCall.createApp name appPassword]

/-- The resource-group name a `create` trace event carries, when it
carries one. -/
def callResourceGroup : CreateCall → Option String
  | .createApp _ _ => none
  | .createResourceGroup _ rg => some rg
  | .validateDeployment rg _ => some rg
  | .createDeployment rg _ => some rg
  | .getDeployment rg _ => some rg
  | .writeSettings _ => none
  | .listDeploymentOperations rg _ => some rg
  | .deleteHintLog rg => some rg

/-- Discriminator: is this event the ARM deployment call? -/
def isCreateDeploymentCall : CreateCall → Bool
  | .createDeployment _ _ => true
  | _ => false

/-- Discriminator: is this event the template-validation call? -/
def isValidateCall : CreateCall → Bool
  | .validateDeployment _ _ => true
  | _ => false

/-- Discriminator: is this event the app-registration call? -/
def isCreateAppCall : CreateCall → Bool
  | .createApp _ _ => true
  | _ => false

/-- Discriminator: is this event the deployment-operations listing of
the negative-result diagnostic branch? -/
def isListOperationsCall : CreateCall → Bool
  | .listDeploymentOperations _ _ => true
  | _ => false

/-- Discriminator: is this event the settings-file rewrite of
`updateDeploymentJsonFile`? -/
def isWriteSettingsCall : CreateCall → Bool
  | .writeSettings _ => true
  | _ => false

/-- The event either carries no resource-group name, or carries exactly
the expected one. -/
def callUsesResourceGroup (expected : String) (c : CreateCall) : Bool :=
  match callResourceGroup c with
  | none => true
  | some rg => rg == expected

/-- The `luis` section of the source settings file
(`appsettings.deployment.json`), as read by `deploy`; string fields,
with the empty string standing for an absent/falsy field. -/
structure LuisSettingsFile where
  authoringKey : String
  endpointKey : String
  region : String

/-- One externally visible call made by `deploy`, in program order. -/
inductive DeployCall where
  | botPrepareDeploy
  | removeZip
  | dotnetPublish (botPath : Option String)
  | luGetFiles
  | mkGeneratedFolder
  | luBuild (key region : String)
  | writeDialogAssets
  | writeDeploymentSettings (content : List (String × JSValue))
  | luisGetAccounts (endpoint : String)
  | luisAssignAccount (appKey : String) (account : JSValue)
  | zipDirectory
  | updatePublishingUser (userName : String)
  | uploadZip (host : String)
  deriving Repr

/-- Results of the file-system, build and network operations `deploy`
performs, supplied as an environment.  `settingsLuis` is the `luis`
property of the source settings file (`none` models an absent
property, whose member access throws a TypeError);
`luisConfigFiles` are the parsed `luis` sections of the
`luis.settings` files found after the build; `accounts` is the JSON
array returned by the azureaccounts GET.  Each `…Error` field, when
set, is the exception that step throws. -/
structure DeployEnv where
  deployFileExists : Bool
  zipExists : Bool
  generatedFolderExists : Bool
  prepareDeployError : Option String
  dotnetPublishError : Option String
  settingsLuis : Option LuisSettingsFile
  luBuildError : Option String
  luisConfigFiles : List (List (String × JSValue))
  deploymentSettings : List (String × JSValue)
  getAccountsError : Option String
  accounts : List JSValue
  zipError : Option String
  uploadError : Option String

/-- Resolution of the effective LUIS authoring key, region and endpoint
key (lines `let luisEndpointKey = ''` … `luisAuthoringRegion =
luisSettings.region`): an absent argument falls back to the settings
file's `luis` section, whose absence makes the member access throw. -/
def resolveLuis (luisAuthoringKey luisAuthoringRegion : String)
    (luisSettings : Option LuisSettingsFile) : Except String (String × String × String) :=
  match
    (if luisAuthoringKey = "" then
      match luisSettings with
      | none => Except.error "TypeError: cannot read property of undefined"
      | some l => Except.ok (l.authoringKey, l.endpointKey)
    else Except.ok (luisAuthoringKey, "")) with
  | .error e => .error e
  | .ok (key, endpointKey) =>
    if luisAuthoringRegion = "" then
      match luisSettings with
      | none => .error "TypeError: cannot read property of undefined"
      | some l => .ok (key, l.region, endpointKey)
    else .ok (key, luisAuthoringRegion, endpointKey)

/-- BotProjectDeploy.getAccount: first account whose `AccountName`
equals the filter; falling off the list returns `undefined`. -/
def getAccount : List JSValue → String → JSValue
  | [], _ => .undefined
  | account :: rest, filter =>
      if jsStrEq (jsProp account "AccountName") filter then account
      else getAccount rest filter

/-- The tail of `deploy` after the LUIS section: zip the publish folder
and upload it via `deployZip` (publishing-user update, then the POST to
the scm host). -/
def deployTail (env : DeployEnv) (name environment : String) (calls : List DeployCall) :
    List DeployCall × Option String :=
  let calls1 := calls ++ [DeployCall.zipDirectory]
  if env.zipError.isSome then (calls1, env.zipError)
  else
    let userName := name ++ "-" ++ environment
    let calls2 := calls1 ++
      [DeployCall.updatePublishingUser userName,
       DeployCall.uploadZip (name ++ "-" ++ environment)]
    if env.uploadError.isSome then (calls2, env.uploadError)
    else (calls2, none)

/-- The LUIS sub-flow of `deploy` (the body of
`if (luisAuthoringKey && luisAuthoringRegion)`): enumerate bot files,
ensure the generated folder, run the lubuild, write dialog assets,
aggregate the published app ids from the `luis.settings` files, write
the deployment settings with `settings.luis = luisConfig`, GET the
azureaccounts list, and POST one account assignment per app id. -/
def deployLuisFlow (env : DeployEnv) (name environment key region endpointKey : String)
    (calls : List DeployCall) : List DeployCall × Option String :=
  let calls1 := calls ++ [DeployCall.luGetFiles] ++
    (if ¬ env.generatedFolderExists then [DeployCall.mkGeneratedFolder] else []) ++
    [DeployCall.luBuild key region]
  if env.luBuildError.isSome then (calls1, env.luBuildError)
  else
    let calls2 := calls1 ++ [DeployCall.writeDialogAssets]
    let luisAppIds := env.luisConfigFiles.foldl (fun acc f => objAssign acc f) []
    let luisEndpoint := "https://" ++ region ++ ".api.cognitive.microsoft.com"
    let luisConfig :=
      objAssign [("endpoint", .str luisEndpoint), ("endpointKey", .str endpointKey)] luisAppIds
    let newSettings := setField env.deploymentSettings "luis" (.obj luisConfig)
    let calls3 := calls2 ++
      [DeployCall.writeDeploymentSettings newSettings,
       DeployCall.luisGetAccounts luisEndpoint]
    if env.getAccountsError.isSome then (calls3, env.getAccountsError)
    else
      let account := getAccount env.accounts (name ++ "-" ++ environment ++ "-luis")
      let calls4 := calls3 ++
        luisAppIds.map (fun kv => DeployCall.luisAssignAccount kv.1 account)
      (calls4, none)

/-- The body of BotProjectDeploy.deploy (everything inside the `try`):
returns the trace of calls issued, and the exception in flight when a
step threw (execution stops there).  `luisAuthoringKey`,
`luisAuthoringRegion` and `language` use `""` for an absent/falsy
argument, matching the `if (!x)` guards of the source. -/
def deployBody (env : DeployEnv) (name environment luisAuthoringKey luisAuthoringRegion : String)
    (botPath : Option String) (language : String) : List DeployCall × Option String :=
  let calls0 : List DeployCall :=
    if ¬ env.deployFileExists then [DeployCall.botPrepareDeploy] else []
  if ¬ env.deployFileExists ∧ env.prepareDeployError.isSome then (calls0, env.prepareDeployError)
  else
    let calls1 := calls0 ++ (if env.zipExists then [DeployCall.removeZip] else [])
    let calls2 := calls1 ++ [DeployCall.dotnetPublish botPath]
    if env.dotnetPublishError.isSome then (calls2, env.dotnetPublishError)
    else
      match resolveLuis luisAuthoringKey luisAuthoringRegion env.settingsLuis with
      | .error e => (calls2, some e)
      | .ok (key, region, endpointKey) =>
        let _language := if language = "" then "en-us" else language
        if key ≠ "" ∧ region ≠ "" then
          match deployLuisFlow env name environment key region endpointKey calls2 with
          | (calls3, some e) => (calls3, some e)
          | (calls3, none) => deployTail env name environment calls3
        else deployTail env name environment calls2

/-- What an invocation of `deploy` looks like from outside: the calls it
made, what the top-level `catch` passed to `console.log`, and the
exception it let escape to the caller. -/
structure DeployOutcome where
  calls : List DeployCall
  consoleLogged : Option String
  propagated : Option String

/-- BotProjectDeploy.deploy: the whole body runs inside
`try { … } catch (error) { console.log(error) }`, so a thrown exception
is logged and nothing propagates. -/
def deployRun (env : DeployEnv) (name environment luisAuthoringKey luisAuthoringRegion : String)
    (botPath : Option String) (language : String) : DeployOutcome :=
  match deployBody env name environment luisAuthoringKey luisAuthoringRegion botPath language with
  | (calls, none) => ⟨calls, none, none⟩
  | (calls, some e) => ⟨calls, some e, none⟩

/-- A LUIS authoring key is known to `deploy`: passed explicitly, or
present (truthy) in the settings file's `luis` section. -/
def luisKeyKnown (luisAuthoringKey : String) (luisSettings : Option LuisSettingsFile) : Bool :=
  (luisAuthoringKey ≠ "" : Bool) ||
    match luisSettings with
    | some l => (l.authoringKey ≠ "" : Bool)
    | none => false

/-- A LUIS authoring region is known to `deploy`: passed explicitly, or
present (truthy) in the settings file's `luis` section. -/
def luisRegionKnown (luisAuthoringRegion : String) (luisSettings : Option LuisSettingsFile) : Bool :=
  (luisAuthoringRegion ≠ "" : Bool) ||
    match luisSettings with
    | some l => (l.region ≠ "" : Bool)
    | none => false

/-- Discriminator: is this event a LUIS network call (the azureaccounts
GET or an account-assignment POST)? -/
def isLuisNetworkCall : DeployCall → Bool
  | .luisGetAccounts _ => true
  | .luisAssignAccount _ _ => true
  | _ => false

/-- Discriminator: is this event part of the LUIS sub-flow? -/
def isLuisFlowCall : DeployCall → Bool
  | .luGetFiles => true
  | .mkGeneratedFolder => true
  | .luBuild _ _ => true
  | .writeDialogAssets => true
  | .writeDeploymentSettings _ => true
  | .luisGetAccounts _ => true
  | .luisAssignAccount _ _ => true
  | _ => false

/-- Discriminator: is this event the rewrite of the deployment settings
file (the LUIS-config merge)? -/
def isWriteDeploymentSettings : DeployCall → Bool
  | .writeDeploymentSettings _ => true
  | _ => false

/-! Publish-status poller (`Publish.tsx`): the history-checking effect
that runs over the selected bots. -/

/-- A publish target as the poller sees it: its name and whether it
carries a (truthy) `lastPublished` timestamp. -/
structure PublishTargetP where
  name : String
  lastPublished : Bool

/-- One entry of a target's publish history; only the HTTP-like status
code matters to the poller's branching. -/
structure HistoryEntry where
  status : Nat
  deriving Repr

/-- A bot's status row: project id, the selected target's name
(`publishTarget`, possibly unset/empty) and the bot's target list. -/
structure BotStatusP where
  id : String
  publishTarget : Option String
  publishTargets : Option (List PublishTargetP)

/-- The publish-history store of one bot: keyed by target name,
mirroring `publishHistory[bot.publishTarget]`. -/
structure BotPublishHistoryP where
  projectId : String
  publishHistory : List (String × List HistoryEntry)

/-- What the history-checking effect of `Publish.tsx` does for a bot:
schedule a delayed `getPublishStatus` (the `setTimeout` in
`getUpdatedStatus`), call `getPublishStatus` immediately, or emit the
completion notification. -/
inductive PollerAction where
  | scheduleRecheck (projectId targetName : String)
  | fetchStatusNow (projectId targetName : String)
  | publishedNotification (projectId : String)
  deriving Repr, DecidableEq

/-- Lookup of a history list by key, mirroring the indexed access
`publishHistory[bot.publishTarget]` (absent key yields `undefined`). -/
def lookupHistory : List (String × List HistoryEntry) → String → Option (List HistoryEntry)
  | [], _ => none
  | (k, h) :: rest, key => if k = key then some h else lookupHistory rest key

/-- The body of the history-checking `useEffect` of `Publish.tsx` for
one selected bot (the `selectedBots.forEach` body): guarded on a truthy
`bot.publishTarget`, a present target list, a found `selectedTarget`
and a non-empty found history, it branches on the most recent entry's
status — 202 schedules one re-check, 200/500 emits the completion
notification when one is still owed, and otherwise, when the target has
a `lastPublished` timestamp and the history length is zero, it fetches
the status immediately. -/
def botCheckActions (histories : List BotPublishHistoryP) (showNotification : Bool)
    (bot : BotStatusP) : List PollerAction :=
  match bot.publishTarget, bot.publishTargets with
  | some targetName, some targets =>
    if targetName = "" then []
    else
      match targets.find? (fun t => t.name == targetName) with
      | none => []
      | some selectedTarget =>
        match (histories.find? (fun h => h.projectId == bot.id)).bind
            (fun h => lookupHistory h.publishHistory targetName) with
        | none => []
        | some botPublishHistory =>
          if botPublishHistory.length > 0 then
            match botPublishHistory.head? with
            | none => []
            | some first =>
              if first.status = 202 then
                [PollerAction.scheduleRecheck bot.id targetName]
              else if first.status = 200 ∨ first.status = 500 then
                if showNotification then [PollerAction.publishedNotification bot.id] else []
              else if selectedTarget.lastPublished ∧ botPublishHistory.length = 0 then
                [PollerAction.fetchStatusNow bot.id targetName]
              else []
          else []
  | _, _ => []

/-- Discriminator: is this action an immediate `getPublishStatus`
call (the empty-history convergence poll)? -/
def isFetchStatusNow : PollerAction → Bool
  | .fetchStatusNow _ _ => true
  | _ => false

/-! Concrete environments used by witnesses and counterexamples. -/

/-- A settings file that already carries an identity, a failing
template validation. -/
def envValidationError : CreateEnv :=
  ⟨true, [("MicrosoftAppId", .str "appX")], "newAppId", some "bad template", 200, none, "ts0"⟩

/-- A settings file with no `MicrosoftAppId` (identity must be
registered), all later steps succeeding. -/
def envNoIdentity : CreateEnv :=
  ⟨true, [("foo", .str "bar")], "newAppId", none, 200, none, "ts0"⟩

/-- A fully successful provisioning run with deployment outputs, whose
settings file holds an extra key `customKey` not touched by the
update. -/
def envHappyCreate : CreateEnv :=
  ⟨true, [("customKey", .str "keepme"), ("MicrosoftAppId", .str "appX")], "newAppId",
   none, 200, some [("out1", pack (.str "val1"))], "ts0"⟩

/-- A deploy run with explicit LUIS key and region, every step
succeeding, and a deployment settings file holding an extra key
`customKey`. -/
def envHappyDeploy : DeployEnv :=
  ⟨true, false, true, none, none, some ⟨"settingsKey", "endpointK", "westus"⟩, none, [],
   [("customKey", .str "keepme")], none, [], none, none⟩

/-- A selected bot whose target `prod` carries a `lastPublished`
timestamp. -/
def botEmptyHistory : BotStatusP :=
  ⟨"proj1", some "prod", some [⟨"prod", true⟩]⟩

/-- A history store in which the `prod` history of that bot is the
empty list. -/
def historiesEmpty : List BotPublishHistoryP :=
  [⟨"proj1", [("prod", [])]⟩]

/-! General lemmas about the association-list object operations. -/

theorem lookupField_setField_ne (l : List (String × JSValue)) (k k' : String) (v : JSValue)
    (h : k ≠ k') : lookupField (setField l k' v) k = lookupField l k := by
  induction l with
  | nil => simp [setField, lookupField, Ne.symm h]
  | cons kv rest ih =>
    obtain ⟨k0, v0⟩ := kv
    by_cases hk : k0 = k'
    · subst hk
      simp [setField, lookupField, h, Ne.symm h]
    · simp [setField, hk, lookupField]
      by_cases hk0 : k0 = k
      · simp [hk0]
      · simp [hk0, ih]

theorem setField_of_lookup_none (l : List (String × JSValue)) (k : String) (v : JSValue)
    (h : lookupField l k = none) : setField l k v = l ++ [(k, v)] := by
  induction l with
  | nil => simp [setField]
  | cons kv rest ih =>
    obtain ⟨k0, v0⟩ := kv
    by_cases hk : k0 = k
    · simp [lookupField, hk] at h
    · simp [lookupField, hk] at h
      simp [setField, hk, ih h]

theorem lookupField_append_none (l₁ l₂ : List (String × JSValue)) (k : String)
    (h₁ : lookupField l₁ k = none) : lookupField (l₁ ++ l₂) k = lookupField l₂ k := by
  induction l₁ with
  | nil => simp
  | cons kv rest ih =>
    obtain ⟨k0, v0⟩ := kv
    by_cases hk : k0 = k
    · simp [lookupField, hk] at h₁
    · simp [lookupField, hk] at h₁ ⊢
      exact ih h₁

theorem jsProp_pack (v : JSValue) : jsProp (pack v) "value" = v := by
  simp [jsProp, pack, lookupField]

/-- Unfolding of one `unpackObject` step on a pack-wrapped field with a
truthy value: assignment of the unwrapped value. -/
theorem unpack_aux (fields : List (String × JSValue)) :
    ∀ acc : List (String × JSValue),
      (∀ kv ∈ fields, truthy kv.2 = true) →
      (fields.map Prod.fst).Nodup →
      (∀ k ∈ fields.map Prod.fst, lookupField acc k = none) →
      List.foldl
        (fun unpacked kv =>
          let objValue := kv.2
          if truthy (jsProp objValue "value") then
            setField unpacked kv.1 (jsProp objValue "value")
          else unpacked)
        acc (fields.map (fun kv => (kv.1, pack kv.2))) = acc ++ fields := by
  induction fields with
  | nil => intro acc _ _ _; simp
  | cons kv rest ih =>
    intro acc htruthy hnodup hacc
    obtain ⟨k0, v0⟩ := kv
    have ht : truthy v0 = true := htruthy (k0, v0) (List.mem_cons_self _ _)
    have hstep :
        (if truthy (jsProp (pack v0) "value") then
          setField acc k0 (jsProp (pack v0) "value")
        else acc) = acc ++ [(k0, v0)] := by
      rw [jsProp_pack, ht]
      simp [setField_of_lookup_none acc k0 v0 (hacc k0 (by simp))]
    simp only [List.map_cons, List.foldl_cons]
    rw [hstep]
    rw [ih (acc ++ [(k0, v0)])
      (fun x hx => htruthy x (List.mem_cons_of_mem _ hx))
      (by simpa using hnodup.of_cons)
      ?_]
    · simp
    · intro k hk
      have hk0 : k0 ≠ k := by
        simp only [List.map_cons, List.nodup_cons] at hnodup
        intro hEq
        exact hnodup.1 (hEq ▸ hk)
      rw [lookupField_append_none _ _ _ (hacc k (by simp [hk]))]
      simp [lookupField, hk0]

/-- C7, counterexample: unpack after pack is NOT the identity for every
value — `unpackObject` drops a field whose wrapped value is falsy.
`getDeploymentTemplateParam` packs the boolean flag, and with the flag
`false` (the default when no authoring key is passed) the unpacked
mapping loses the `shouldCreateAuthoringResource` key. -/
theorem c7_counterexample :
    unpackObject [("shouldCreateAuthoringResource", pack (.bool false))] = [] ∧
    unpackObject [("shouldCreateAuthoringResource", pack (.bool false))] ≠
      [("shouldCreateAuthoringResource", JSValue.bool false)] ∧
    lookupField
      (unpackObject (getDeploymentTemplateParam (.str "appid") "pw" "westus" "bot1" false))
      "shouldCreateAuthoringResource" = none := by
  refine ⟨rfl, ?_, rfl⟩
  intro h
  rw [show unpackObject [("shouldCreateAuthoringResource", pack (.bool false))] = [] from rfl] at h
  exact List.noConfusion h

/-- C7: every template parameter built by `getDeploymentTemplateParam`
is wrapped as `{value: X}` by `pack`, and unpacking a pack-wrapped
object restores the original mapping — provided (as the counterexample
forces) every wrapped value is truthy and the keys are distinct. -/
theorem c7_pack_unpack (fields : List (String × JSValue))
    (htruthy : ∀ kv ∈ fields, truthy kv.2 = true)
    (hnodup : (fields.map Prod.fst).Nodup) :
    unpackObject (fields.map (fun kv => (kv.1, pack kv.2))) = fields ∧
    ∀ (appId : JSValue) (appPwd location name : String) (flag : Bool),
      ∀ kv ∈ getDeploymentTemplateParam appId appPwd location name flag,
        ∃ x, kv.2 = pack x := by
  constructor
  · have := unpack_aux fields [] htruthy hnodup (by intro k _; rfl)
    simpa [unpackObject] using this
  · intro appId appPwd location name flag kv hkv
    simp only [getDeploymentTemplateParam, List.mem_cons, List.not_mem_nil, or_false] at hkv
    rcases hkv with h | h | h | h | h <;> subst h
    · exact ⟨appId, rfl⟩
    · exact ⟨.str appPwd, rfl⟩
    · exact ⟨.str location, rfl⟩
    · exact ⟨.str name, rfl⟩
    · exact ⟨.bool flag, rfl⟩

/-- C7, witness: the amended round-trip at a concrete two-field mapping
with truthy values. -/
theorem c7_pack_unpack_witness :
    unpackObject
      ([("appId", JSValue.str "id1"), ("botId", JSValue.str "bot1")].map
        (fun kv => (kv.1, pack kv.2))) =
      [("appId", JSValue.str "id1"), ("botId", JSValue.str "bot1")] :=
  (c7_pack_unpack [("appId", JSValue.str "id1"), ("botId", JSValue.str "bot1")]
    (by intro kv hkv; simp at hkv; rcases hkv with h | h <;> simp [h, truthy])
    (by simp)).1

/-- Closed form of `createRest`: trace and result of the three possible
outcomes (validation failure, deployment failure, success). -/
theorem createRest_eq (env : CreateEnv)
    (name location environment appPassword luisAuthoringKey : String)
    (appId : JSValue) (calls0 : List CreateCall) :
    createRest env name location environment appPassword luisAuthoringKey appId calls0 =
      if env.validationError.isSome then
        (some false, calls0 ++
          [CreateCall.createResourceGroup location (name ++ "-" ++ environment),
           CreateCall.validateDeployment (name ++ "-" ++ environment) env.timeStamp,
           CreateCall.deleteHintLog (name ++ "-" ++ environment)])
      else if env.deploymentStatus ≠ 200 then
        (some false, calls0 ++
          [CreateCall.createResourceGroup location (name ++ "-" ++ environment),
           CreateCall.validateDeployment (name ++ "-" ++ environment) env.timeStamp,
           CreateCall.createDeployment (name ++ "-" ++ environment) env.timeStamp,
           CreateCall.deleteHintLog (name ++ "-" ++ environment)])
      else
        (some true, calls0 ++
          [CreateCall.createResourceGroup location (name ++ "-" ++ environment),
           CreateCall.validateDeployment (name ++ "-" ++ environment) env.timeStamp,
           CreateCall.createDeployment (name ++ "-" ++ environment) env.timeStamp,
           CreateCall.getDeployment (name ++ "-" ++ environment) env.timeStamp] ++
          (match (updateDeploymentJsonFile env.deploymentOutputs appId appPassword).2 with
           | some content => [CreateCall.writeSettings content]
           | none => []) ++
          [CreateCall.deleteHintLog (name ++ "-" ++ environment)]) := by
  unfold createRest
  by_cases hv : env.validationError.isSome
  · simp [hv]
  · by_cases hs : env.deploymentStatus = 200
    · simp [hv, hs, truthy]
    · simp [hv, hs]

/-- C2: in every invocation of `create` that reaches validation
(settings file present, identity present or password supplied) and in
which `validateDeployment` reports an error, `create` returns `false`,
the single validation call used the derived resource group, and
`createDeployment` is never called. -/
theorem c2_validation_error_aborts (env : CreateEnv)
    (name location environment appPassword luisAuthoringKey : String)
    (hfile : env.settingsFileExists = true)
    (hpre : truthy (jsProp (.obj env.settings) "MicrosoftAppId") = true ∨ appPassword ≠ "")
    (herr : env.validationError.isSome = true) :
    (createRun env name location environment appPassword luisAuthoringKey).1 = some false ∧
    (createRun env name location environment appPassword luisAuthoringKey).2.filter
      isValidateCall =
      [CreateCall.validateDeployment (name ++ "-" ++ environment) env.timeStamp] ∧
    (createRun env name location environment appPassword luisAuthoringKey).2.filter
      isCreateDeploymentCall = [] := by
  unfold createRun
  by_cases hid : truthy (jsProp (.obj env.settings) "MicrosoftAppId") = true
  · simp [hfile, hid, createRest_eq, herr, isValidateCall, isCreateDeploymentCall]
  · have hpw : ¬ appPassword = "" := by
      rcases hpre with h | h
      · exact absurd h hid
      · exact h
    simp [hfile, hid, hpw, createRest_eq, herr, isValidateCall, isCreateDeploymentCall]

/-- C2, witness: the theorem applied to a concrete environment whose
validation result carries an error. -/
theorem c2_validation_error_aborts_witness :
    (createRun envValidationError "bot1" "westus" "dev" "pw" "").1 = some false ∧
    (createRun envValidationError "bot1" "westus" "dev" "pw" "").2.filter
      isValidateCall =
      [CreateCall.validateDeployment ("bot1" ++ "-" ++ "dev") envValidationError.timeStamp] ∧
    (createRun envValidationError "bot1" "westus" "dev" "pw" "").2.filter
      isCreateDeploymentCall = [] :=
  c2_validation_error_aborts envValidationError "bot1" "westus" "dev" "pw" ""
    rfl (Or.inl rfl) rfl

/-- C3, counterexample: with no `MicrosoftAppId` in the settings and an
empty `appPassword`, `create` performs a bare `return`: the returned
value is JavaScript `undefined` (modelled `none`), not the boolean
`false` the claim states — though indeed no app is registered. -/
theorem c3_counterexample :
    (createRun envNoIdentity "bot1" "westus" "dev" "" "").1 = none ∧
    (createRun envNoIdentity "bot1" "westus" "dev" "" "").1 ≠ some false ∧
    (createRun envNoIdentity "bot1" "westus" "dev" "" "").2.filter isCreateAppCall = [] := by
  refine ⟨rfl, ?_, rfl⟩
  intro h
  rw [show (createRun envNoIdentity "bot1" "westus" "dev" "" "").1 = none from rfl] at h
  exact Option.noConfusion h

/-- C3 (amended): when the settings document contains no truthy
`MicrosoftAppId` and the `appPassword` argument is empty, `create`
returns early with no value (JavaScript `undefined`, a falsy value but
not the boolean `false`), registers no identity, and issues no external
call at all. -/
theorem c3_no_identity_no_password (env : CreateEnv)
    (name location environment luisAuthoringKey : String)
    (hfile : env.settingsFileExists = true)
    (hnoid : truthy (jsProp (.obj env.settings) "MicrosoftAppId") = false) :
    (createRun env name location environment "" luisAuthoringKey).1 = none ∧
    (createRun env name location environment "" luisAuthoringKey).2.filter
      isCreateAppCall = [] ∧
    (createRun env name location environment "" luisAuthoringKey).2 = [] := by
  unfold createRun
  simp [hfile, hnoid]

/-- C3, witness: the amended theorem at a concrete identity-less
environment. -/
theorem c3_no_identity_no_password_witness :
    (createRun envNoIdentity "bot1" "westus" "dev" "" "").1 = none ∧
    (createRun envNoIdentity "bot1" "westus" "dev" "" "").2.filter
      isCreateAppCall = [] ∧
    (createRun envNoIdentity "bot1" "westus" "dev" "" "").2 = [] :=
  c3_no_identity_no_password envNoIdentity "bot1" "westus" "dev" "" rfl rfl

/-- C4: once `create` reaches provisioning (settings file present,
identity present or password supplied), its returned value is `true`
exactly when validation reports no error and the deployment response
status is 200 — it is a function of those two outcomes alone, so the
settings-merge result and its diagnostics never change it. -/
theorem c4_return_iff_success (env : CreateEnv)
    (name location environment appPassword luisAuthoringKey : String)
    (hfile : env.settingsFileExists = true)
    (hpre : truthy (jsProp (.obj env.settings) "MicrosoftAppId") = true ∨ appPassword ≠ "") :
    (createRun env name location environment appPassword luisAuthoringKey).1 =
      some (env.validationError.isNone && env.deploymentStatus == 200) ∧
    ((createRun env name location environment appPassword luisAuthoringKey).1 = some true ↔
      (env.validationError = none ∧ env.deploymentStatus = 200)) := by
  have hmain : (createRun env name location environment appPassword luisAuthoringKey).1 =
      some (env.validationError.isNone && env.deploymentStatus == 200) := by
    unfold createRun
    have hbranch : ∀ (appId : JSValue) (calls0 : List CreateCall),
        (createRest env name location environment appPassword luisAuthoringKey appId calls0).1 =
          some (env.validationError.isNone && env.deploymentStatus == 200) := by
      intro appId calls0
      rw [createRest_eq]
      by_cases hv : env.validationError.isSome
      · obtain ⟨e, he⟩ := Option.isSome_iff_exists.mp hv
        simp [he]
      · by_cases hs : env.deploymentStatus = 200
        · simp [hv, hs, Option.not_isSome_iff_eq_none.mp hv]
        · simp [hv, hs, Option.not_isSome_iff_eq_none.mp hv, Nat.beq_eq_true_eq]
    by_cases hid : truthy (jsProp (.obj env.settings) "MicrosoftAppId") = true
    · simp only [hfile, not_true, if_neg, ite_false, ite_true, hid]
      exact hbranch _ _
    · have hpw : ¬ appPassword = "" := by
        rcases hpre with h | h
        · exact absurd h hid
        · exact h
      simp only [hfile, hid, hpw]
      simp only [Bool.not_eq_true] at hid
      simp [hid, hpw]
      exact hbranch _ _
  refine ⟨hmain, ?_⟩
  rw [hmain]
  simp [Option.isNone_iff_eq_none]

/-- C4, witness: a fully successful run returns `true`. -/
theorem c4_return_iff_success_witness :
    (createRun envHappyCreate "bot1" "westus" "dev" "pw" "").1 =
      some (envHappyCreate.validationError.isNone && envHappyCreate.deploymentStatus == 200) ∧
    ((createRun envHappyCreate "bot1" "westus" "dev" "pw" "").1 = some true ↔
      (envHappyCreate.validationError = none ∧ envHappyCreate.deploymentStatus = 200)) :=
  c4_return_iff_success envHappyCreate "bot1" "westus" "dev" "pw" "" rfl (Or.inl rfl)

/-- C9: every `create` trace event that carries a resource-group name
(group creation, validation, deployment, deployment read,
operations listing, remediation log) carries exactly
`name ++ "-" ++ environment`. -/
theorem c9_resource_group_name :
    ∀ (env : CreateEnv) (name location environment appPassword luisAuthoringKey : String),
      (createRun env name location environment appPassword luisAuthoringKey).2.all
        (callUsesResourceGroup (name ++ "-" ++ environment)) = true := by
  intro env name location environment appPassword luisAuthoringKey
  unfold createRun
  have hbranch : ∀ (appId : JSValue) (calls0 : List CreateCall),
      calls0.all (callUsesResourceGroup (name ++ "-" ++ environment)) = true →
      (createRest env name location environment appPassword luisAuthoringKey appId
        calls0).2.all (callUsesResourceGroup (name ++ "-" ++ environment)) = true := by
    intro appId calls0 h0
    rw [createRest_eq]
    by_cases hv : env.validationError.isSome
    · simp [hv, h0, callUsesResourceGroup, callResourceGroup]
    · by_cases hs : env.deploymentStatus = 200
      · rcases houts : env.deploymentOutputs with _ | outs <;>
          simp [hv, hs, houts, h0, updateDeploymentJsonFile,
            callUsesResourceGroup, callResourceGroup]
      · simp [hv, hs, h0, callUsesResourceGroup, callResourceGroup]
  by_cases hfile : env.settingsFileExists
  · by_cases hid : truthy (jsProp (.obj env.settings) "MicrosoftAppId") = true
    · have h := hbranch (jsProp (.obj env.settings) "MicrosoftAppId") [] (by simp)
      simpa [hfile, hid] using h
    · by_cases hpw : appPassword = ""
      · simp [hfile, hid, hpw]
      · have h := hbranch (.str env.createdAppId) [CreateCall.createApp name appPassword]
          (by simp [callUsesResourceGroup, callResourceGroup])
        simp only [Bool.not_eq_true] at hid
        simpa [hfile, hid, hpw] using h
  · simp [hfile]

/-- C10: `updateDeploymentJsonFile` always resolves to an object —
truthy in JavaScript — so the diagnostic branch of `create` guarded by
`if (!updateResult)` (the deployment-operations listing and failure
classification) is unreachable: no trace of `create`, for any
environment and arguments, contains a `listDeploymentOperations`
call. -/
theorem c10_diagnostic_branch_unreachable :
    ∀ (env : CreateEnv) (name location environment appPassword luisAuthoringKey : String),
      (createRun env name location environment appPassword luisAuthoringKey).2.filter
        isListOperationsCall = [] ∧
      ∀ (outputs : Option (List (String × JSValue))) (appId : JSValue) (appPwd : String),
        truthy (.obj (updateDeploymentJsonFile outputs appId appPwd).1) = true := by
  intro env name location environment appPassword luisAuthoringKey
  refine ⟨?_, fun _ _ _ => rfl⟩
  unfold createRun
  have hbranch : ∀ (appId : JSValue) (calls0 : List CreateCall),
      calls0.filter isListOperationsCall = [] →
      (createRest env name location environment appPassword luisAuthoringKey appId
        calls0).2.filter isListOperationsCall = [] := by
    intro appId calls0 h0
    rw [createRest_eq]
    by_cases hv : env.validationError.isSome
    · simp [hv, h0, isListOperationsCall]
    · by_cases hs : env.deploymentStatus = 200
      · rcases houts : env.deploymentOutputs with _ | outs <;>
          simp [hv, hs, houts, h0, updateDeploymentJsonFile, isListOperationsCall]
      · simp [hv, hs, h0, isListOperationsCall]
  by_cases hfile : env.settingsFileExists
  · by_cases hid : truthy (jsProp (.obj env.settings) "MicrosoftAppId") = true
    · have h := hbranch (jsProp (.obj env.settings) "MicrosoftAppId") [] (by simp)
      simpa [hfile, hid] using h
    · by_cases hpw : appPassword = ""
      · simp [hfile, hid, hpw]
      · have h := hbranch (.str env.createdAppId) [CreateCall.createApp name appPassword]
          (by simp [isListOperationsCall])
        simp only [Bool.not_eq_true] at hid
        simpa [hfile, hid, hpw] using h
  · simp [hfile]

/-- C1, counterexample: in a successful `create`, the post-provision
rewrite of the settings file is a full replacement, not a merge: the
document's pre-existing key `customKey` (not explicitly updated) is
absent from the written content, refuting the frame property for the
create path. -/
theorem c1_counterexample :
    (createRun envHappyCreate "bot1" "westus" "dev" "pw" "").2.filter isWriteSettingsCall =
      [CreateCall.writeSettings
        [("out1", JSValue.str "val1"), ("MicrosoftAppId", JSValue.str "appX"),
         ("MicrosoftAppPassword", JSValue.str "pw")]] ∧
    lookupField envHappyCreate.settings "customKey" = some (JSValue.str "keepme") ∧
    lookupField
      [("out1", JSValue.str "val1"), ("MicrosoftAppId", JSValue.str "appX"),
       ("MicrosoftAppPassword", JSValue.str "pw")] "customKey" = none :=
  ⟨rfl, rfl, rfl⟩

/-- C5: `deploy` never propagates an exception: for every environment
(including every combination of step failures: prepare-file write,
dotnet build, missing `luis` settings, lubuild, azureaccounts fetch,
zip, upload) the top-level catch leaves `propagated` empty and routes
the in-flight exception, when there is one, to `console.log`. -/
theorem c5_deploy_never_throws :
    ∀ (env : DeployEnv) (name environment luisAuthoringKey luisAuthoringRegion : String)
      (botPath : Option String) (language : String),
      (deployRun env name environment luisAuthoringKey luisAuthoringRegion botPath
        language).propagated = none ∧
      (deployRun env name environment luisAuthoringKey luisAuthoringRegion botPath
        language).consoleLogged =
        (deployBody env name environment luisAuthoringKey luisAuthoringRegion botPath
          language).2 := by
  intro env name environment luisAuthoringKey luisAuthoringRegion botPath language
  unfold deployRun
  rcases h : deployBody env name environment luisAuthoringKey luisAuthoringRegion botPath
      language with ⟨calls, err⟩
  cases err <;> simp

/-- The calls an invocation of `deploy` makes are those of its body,
whether or not the body threw. -/
theorem deployRun_calls (env : DeployEnv)
    (name environment luisAuthoringKey luisAuthoringRegion : String)
    (botPath : Option String) (language : String) :
    (deployRun env name environment luisAuthoringKey luisAuthoringRegion botPath
      language).calls =
    (deployBody env name environment luisAuthoringKey luisAuthoringRegion botPath
      language).1 := by
  unfold deployRun
  rcases h : deployBody env name environment luisAuthoringKey luisAuthoringRegion botPath
      language with ⟨calls, err⟩
  cases err <;> simp

/-- When `resolveLuis` succeeds, the effective key is non-empty exactly
when an authoring key is known, and likewise for the region. -/
theorem resolveLuis_known (luisAuthoringKey luisAuthoringRegion : String)
    (ls : Option LuisSettingsFile) (key region endpointKey : String)
    (h : resolveLuis luisAuthoringKey luisAuthoringRegion ls =
      .ok (key, region, endpointKey)) :
    ((key ≠ "") ↔ luisKeyKnown luisAuthoringKey ls = true) ∧
    ((region ≠ "") ↔ luisRegionKnown luisAuthoringRegion ls = true) := by
  unfold resolveLuis at h
  by_cases hk : luisAuthoringKey = ""
  · rcases ls with _ | l
    · simp [hk] at h
    · simp only [hk, if_true, ite_true] at h
      by_cases hr : luisAuthoringRegion = ""
      · simp [hr] at h
        obtain ⟨h1, h2, h3⟩ := h
        subst h1; subst h2
        simp [luisKeyKnown, luisRegionKnown, hk, hr]
      · simp [hr] at h
        obtain ⟨h1, h2, h3⟩ := h
        subst h1; subst h2
        simp [luisKeyKnown, luisRegionKnown, hk, hr]
  · simp only [hk, if_false, ite_false] at h
    by_cases hr : luisAuthoringRegion = ""
    · rcases ls with _ | l
      · simp [hr] at h
      · simp [hr] at h
        obtain ⟨h1, h2, h3⟩ := h
        subst h1; subst h2
        simp [luisKeyKnown, luisRegionKnown, hk, hr]
    · simp [hr] at h
      obtain ⟨h1, h2, h3⟩ := h
      subst h1; subst h2
      simp [luisKeyKnown, luisRegionKnown, hk, hr]

/-- When `resolveLuis` throws (absent `luis` section consulted for a
fallback), the key and the region are not both known. -/
theorem resolveLuis_error_not_known (luisAuthoringKey luisAuthoringRegion : String)
    (ls : Option LuisSettingsFile) (e : String)
    (h : resolveLuis luisAuthoringKey luisAuthoringRegion ls = .error e) :
    ¬ (luisKeyKnown luisAuthoringKey ls = true ∧
       luisRegionKnown luisAuthoringRegion ls = true) := by
  unfold resolveLuis at h
  rcases ls with _ | l
  · by_cases hk : luisAuthoringKey = ""
    · simp [luisKeyKnown, hk]
    · by_cases hr : luisAuthoringRegion = ""
      · simp [luisRegionKnown, hr]
      · simp [hk, hr] at h
  · by_cases hk : luisAuthoringKey = "" <;> by_cases hr : luisAuthoringRegion = "" <;>
      simp [hk, hr] at h

/-- The zip/upload tail adds no LUIS sub-flow event. -/
theorem deployTail_any_flow (env : DeployEnv) (name environment : String)
    (t : List DeployCall) :
    (deployTail env name environment t).1.any isLuisFlowCall = t.any isLuisFlowCall := by
  unfold deployTail
  by_cases hz : env.zipError.isSome <;> by_cases hu : env.uploadError.isSome <;>
    simp [hz, hu, isLuisFlowCall]

/-- The zip/upload tail adds no LUIS network call. -/
theorem deployTail_filter_network (env : DeployEnv) (name environment : String)
    (t : List DeployCall) :
    (deployTail env name environment t).1.filter isLuisNetworkCall =
      t.filter isLuisNetworkCall := by
  unfold deployTail
  by_cases hz : env.zipError.isSome <;> by_cases hu : env.uploadError.isSome <;>
    simp [hz, hu, isLuisNetworkCall]

/-- Whatever the LUIS sub-flow's outcome, its trace contains the
bot-file enumeration that opens the sub-flow. -/
theorem deployLuisFlow_has_getFiles (env : DeployEnv)
    (name environment key region endpointKey : String)
    (t calls3 : List DeployCall) (err : Option String)
    (heq : deployLuisFlow env name environment key region endpointKey t = (calls3, err)) :
    DeployCall.luGetFiles ∈ calls3 := by
  have hc : calls3 = (deployLuisFlow env name environment key region endpointKey t).1 := by
    rw [heq]
  subst hc
  unfold deployLuisFlow
  by_cases hgen : env.generatedFolderExists <;> by_cases hb : env.luBuildError.isSome <;>
    by_cases hg : env.getAccountsError.isSome <;> simp [hgen, hb, hg]

/-- C6: in `deploy` (when the steps before the LUIS gate do not throw)
the Language-Model Publisher sub-flow runs exactly when both a LUIS
authoring key and a LUIS authoring region are known — passed explicitly
or sourced from the settings file — and when either is absent the trace
contains no LUIS network call (no account fetch, no account
assignment). -/
theorem c6_luis_gating (env : DeployEnv)
    (name environment luisAuthoringKey luisAuthoringRegion : String)
    (botPath : Option String) (language : String)
    (hprep : env.prepareDeployError = none)
    (hdotnet : env.dotnetPublishError = none) :
    ((deployRun env name environment luisAuthoringKey luisAuthoringRegion botPath
        language).calls.any isLuisFlowCall = true ↔
      (luisKeyKnown luisAuthoringKey env.settingsLuis = true ∧
       luisRegionKnown luisAuthoringRegion env.settingsLuis = true)) ∧
    (¬ (luisKeyKnown luisAuthoringKey env.settingsLuis = true ∧
        luisRegionKnown luisAuthoringRegion env.settingsLuis = true) →
      (deployRun env name environment luisAuthoringKey luisAuthoringRegion botPath
        language).calls.filter isLuisNetworkCall = []) := by
  rw [deployRun_calls]
  unfold deployBody
  simp only [hprep, hdotnet, Option.isSome_none, and_false, if_false, Bool.false_eq_true,
    ite_false]
  rcases hres : resolveLuis luisAuthoringKey luisAuthoringRegion env.settingsLuis with e |
    ⟨key, region, endpointKey⟩
  · have hnk := resolveLuis_error_not_known luisAuthoringKey luisAuthoringRegion
      env.settingsLuis e hres
    constructor
    · by_cases h1 : env.deployFileExists <;> by_cases h2 : env.zipExists <;>
        simp [h1, h2, isLuisFlowCall, hnk]
    · intro _
      by_cases h1 : env.deployFileExists <;> by_cases h2 : env.zipExists <;>
        simp [h1, h2, isLuisNetworkCall]
  · obtain ⟨hkiff, hriff⟩ := resolveLuis_known luisAuthoringKey luisAuthoringRegion
      env.settingsLuis key region endpointKey hres
    dsimp only
    by_cases hkr : key ≠ "" ∧ region ≠ ""
    · have hknown : luisKeyKnown luisAuthoringKey env.settingsLuis = true ∧
          luisRegionKnown luisAuthoringRegion env.settingsLuis = true :=
        ⟨hkiff.mp hkr.1, hriff.mp hkr.2⟩
      rw [if_pos hkr]
      rcases hflow : deployLuisFlow env name environment key region endpointKey
          (((if ¬ env.deployFileExists then [DeployCall.botPrepareDeploy] else []) ++
            (if env.zipExists then [DeployCall.removeZip] else [])) ++
            [DeployCall.dotnetPublish botPath]) with ⟨calls3, errf⟩
      have hget := deployLuisFlow_has_getFiles env name environment key region endpointKey
        _ calls3 errf hflow
      have hany3 : calls3.any isLuisFlowCall = true :=
        List.any_eq_true.mpr ⟨DeployCall.luGetFiles, hget, rfl⟩
      cases errf
      · constructor
        · simp [deployTail_any_flow, hany3, hknown]
        · intro h
          exact absurd hknown h
      · constructor
        · simp [hany3, hknown]
        · intro h
          exact absurd hknown h
    · have hnk : ¬ (luisKeyKnown luisAuthoringKey env.settingsLuis = true ∧
          luisRegionKnown luisAuthoringRegion env.settingsLuis = true) := by
        intro h
        exact hkr ⟨hkiff.mpr h.1, hriff.mpr h.2⟩
      rw [if_neg hkr]
      constructor
      · rw [deployTail_any_flow]
        by_cases h1 : env.deployFileExists <;> by_cases h2 : env.zipExists <;>
          simp [h1, h2, isLuisFlowCall, hnk]
      · intro _
        rw [deployTail_filter_network]
        by_cases h1 : env.deployFileExists <;> by_cases h2 : env.zipExists <;>
          simp [h1, h2, isLuisNetworkCall]

/-- C6, witness: the gating theorem at a concrete environment with an
explicit key and region. -/
theorem c6_luis_gating_witness :
    (((deployRun envHappyDeploy "bot1" "dev" "expKey" "westus2" none "").calls.any
        isLuisFlowCall = true) ↔
      (luisKeyKnown "expKey" envHappyDeploy.settingsLuis = true ∧
       luisRegionKnown "westus2" envHappyDeploy.settingsLuis = true)) ∧
    (¬ (luisKeyKnown "expKey" envHappyDeploy.settingsLuis = true ∧
        luisRegionKnown "westus2" envHappyDeploy.settingsLuis = true) →
      (deployRun envHappyDeploy "bot1" "dev" "expKey" "westus2" none "").calls.filter
        isLuisNetworkCall = []) :=
  c6_luis_gating envHappyDeploy "bot1" "dev" "expKey" "westus2" none "" rfl rfl

/-- The `deploy` prefix before the LUIS gate (prepare file, remove zip,
dotnet publish) contains no deployment-settings write. -/
theorem writeDS_not_in_prelude (dfe zip : Bool) (botPath : Option String)
    (c : List (String × JSValue)) :
    DeployCall.writeDeploymentSettings c ∉
      (((if ¬ dfe then [DeployCall.botPrepareDeploy] else []) ++
        (if zip then [DeployCall.removeZip] else [])) ++
        [DeployCall.dotnetPublish botPath]) := by
  cases dfe <;> cases zip <;> simp

/-- The zip/upload tail adds no deployment-settings write. -/
theorem writeDS_deployTail (env : DeployEnv) (name environment : String)
    (t : List DeployCall) (c : List (String × JSValue))
    (h : DeployCall.writeDeploymentSettings c ∈ (deployTail env name environment t).1) :
    DeployCall.writeDeploymentSettings c ∈ t := by
  unfold deployTail at h
  by_cases hz : env.zipError.isSome <;> by_cases hu : env.uploadError.isSome <;>
    simp [hz, hu] at h <;> exact h

/-- Any deployment-settings write of the LUIS sub-flow writes the prior
deployment settings with only the `luis` key reassigned. -/
theorem writeDS_deployLuisFlow (env : DeployEnv)
    (name environment key region endpointKey : String)
    (t calls3 : List DeployCall) (err : Option String) (c : List (String × JSValue))
    (heq : deployLuisFlow env name environment key region endpointKey t = (calls3, err))
    (h : DeployCall.writeDeploymentSettings c ∈ calls3) :
    DeployCall.writeDeploymentSettings c ∈ t ∨
      ∃ v, c = setField env.deploymentSettings "luis" v := by
  have hc : calls3 = (deployLuisFlow env name environment key region endpointKey t).1 := by
    rw [heq]
  subst hc
  unfold deployLuisFlow at h
  by_cases hgen : env.generatedFolderExists <;> by_cases hb : env.luBuildError.isSome <;>
    by_cases hg : env.getAccountsError.isSome <;> simp [hgen, hb, hg] at h <;>
      first
        | exact Or.inl h
        | (rcases h with h | h
           · exact Or.inl h
           · exact Or.inr ⟨_, h⟩)

/-- C1 (amended): in `deploy`, every rewrite of the deployment settings
file (the LUIS-config merge) preserves every key other than `luis`:
the written content agrees with the prior document on all other keys.
(For the post-provision rewrite of `create`, the counterexample shows
the claim fails: that rewrite replaces the document.) -/
theorem c1_luis_merge_frame (env : DeployEnv)
    (name environment luisAuthoringKey luisAuthoringRegion : String)
    (botPath : Option String) (language : String)
    (c : List (String × JSValue)) (k : String)
    (hmem : DeployCall.writeDeploymentSettings c ∈
      (deployRun env name environment luisAuthoringKey luisAuthoringRegion botPath
        language).calls)
    (hk : k ≠ "luis") :
    lookupField c k = lookupField env.deploymentSettings k := by
  rw [deployRun_calls] at hmem
  have hset : ∃ v, c = setField env.deploymentSettings "luis" v := by
    unfold deployBody at hmem
    by_cases hpe : ¬ env.deployFileExists ∧ env.prepareDeployError.isSome
    · rw [if_pos hpe] at hmem
      rcases hpe with ⟨h1, _⟩
      simp [h1] at hmem
    · rw [if_neg hpe] at hmem
      by_cases hd : env.dotnetPublishError.isSome
      · rw [if_pos hd] at hmem
        exact absurd hmem (writeDS_not_in_prelude env.deployFileExists env.zipExists botPath c)
      · rw [if_neg hd] at hmem
        rcases hres : resolveLuis luisAuthoringKey luisAuthoringRegion env.settingsLuis with
          e | ⟨key, region, endpointKey⟩
        · rw [hres] at hmem
          dsimp only at hmem
          exact absurd hmem (writeDS_not_in_prelude env.deployFileExists env.zipExists botPath c)
        · rw [hres] at hmem
          dsimp only at hmem
          by_cases hkr : key ≠ "" ∧ region ≠ ""
          · rw [if_pos hkr] at hmem
            rcases hflow : deployLuisFlow env name environment key region endpointKey
                (((if ¬ env.deployFileExists then [DeployCall.botPrepareDeploy] else []) ++
                  (if env.zipExists then [DeployCall.removeZip] else [])) ++
                  [DeployCall.dotnetPublish botPath]) with ⟨calls3, errf⟩
            rw [hflow] at hmem
            cases errf <;> dsimp only at hmem
            · have hmem3 := writeDS_deployTail env name environment calls3 c hmem
              rcases writeDS_deployLuisFlow env name environment key region endpointKey
                  _ calls3 none c hflow hmem3 with hin | hv
              · exact absurd hin
                  (writeDS_not_in_prelude env.deployFileExists env.zipExists botPath c)
              · exact hv
            · rcases writeDS_deployLuisFlow env name environment key region endpointKey
                  _ calls3 (some _) c hflow hmem with hin | hv
              · exact absurd hin
                  (writeDS_not_in_prelude env.deployFileExists env.zipExists botPath c)
              · exact hv
          · rw [if_neg hkr] at hmem
            have hmem2 := writeDS_deployTail env name environment _ c hmem
            exact absurd hmem2
              (writeDS_not_in_prelude env.deployFileExists env.zipExists botPath c)
  rcases hset with ⟨v, rfl⟩
  exact lookupField_setField_ne env.deploymentSettings k "luis" v hk

/-- C1, witness: the frame theorem applied to a concrete deploy run —
the written deployment settings keep `customKey` unchanged. -/
theorem c1_luis_merge_frame_witness :
    lookupField
      [("customKey", JSValue.str "keepme"),
       ("luis", JSValue.obj
         [("endpoint", JSValue.str "https://westus2.api.cognitive.microsoft.com"),
          ("endpointKey", JSValue.str "")])] "customKey" =
      lookupField envHappyDeploy.deploymentSettings "customKey" :=
  c1_luis_merge_frame envHappyDeploy "bot1" "dev" "expKey" "westus2" none ""
    [("customKey", JSValue.str "keepme"),
     ("luis", JSValue.obj
       [("endpoint", JSValue.str "https://westus2.api.cognitive.microsoft.com"),
        ("endpointKey", JSValue.str "")])] "customKey"
    (List.Mem.tail _ (List.Mem.tail _ (List.Mem.tail _ (List.Mem.tail _ (List.Mem.head _)))))
    (by decide)

/-- C8: the claim's convergence poll — history empty while the target
carries a `lastPublished` timestamp — never happens: the branch that
would issue it sits inside the `length > 0` guard while requiring
`length === 0`, so it is dead code.  At the claimed input (empty
`prod` history, timestamped target) the effect issues no action at
all, and no input whatsoever produces an immediate status fetch. -/
theorem c8_empty_history_never_polls :
    botCheckActions historiesEmpty true botEmptyHistory = [] ∧
    ∀ (histories : List BotPublishHistoryP) (showNotification : Bool) (bot : BotStatusP),
      (botCheckActions histories showNotification bot).filter isFetchStatusNow = [] := by
  refine ⟨rfl, ?_⟩
  intro histories showNotification bot
  unfold botCheckActions
  rcases bot with ⟨id, pt, pts⟩
  dsimp only
  rcases pt with _ | targetName
  · rfl
  rcases pts with _ | targets
  · rfl
  dsimp only
  by_cases hname : targetName = ""
  · rw [if_pos hname]
    rfl
  · rw [if_neg hname]
    rcases hfind : targets.find? (fun t => t.name == targetName) with _ | selectedTarget
    · rw [hfind]
      rfl
    rw [hfind]
    dsimp only
    rcases hhist : (histories.find? (fun h => h.projectId == id)).bind
        (fun h => lookupHistory h.publishHistory targetName) with _ | botPublishHistory
    · rw [hhist]
      rfl
    rw [hhist]
    dsimp only
    by_cases hlen : botPublishHistory.length > 0
    · rw [if_pos hlen]
      rcases hhead : botPublishHistory.head? with _ | first
      · rfl
      dsimp only
      by_cases h202 : first.status = 202
      · rw [if_pos h202]; rfl
      · rw [if_neg h202]
        by_cases hterm : first.status = 200 ∨ first.status = 500
        · rw [if_pos hterm]
          by_cases hshow : showNotification = true
          · rw [if_pos hshow]; rfl
          · rw [if_neg hshow]; rfl
        · rw [if_neg hterm]
          have hdead : ¬ (selectedTarget.lastPublished = true ∧
              botPublishHistory.length = 0) := by
            rintro ⟨-, h0⟩
            omega
          rw [if_neg hdead]
          rfl
    · rw [if_neg hlen]
      rfl

end BotDeploy
